import Mathlib

/-!
Verification development for the Azure KeyVault SDK client facade
(error normalizer, secret entity mapper, and the List/Get secret
operations), shallowly embedded in Lean 4.

Embedding conventions:
* Go pointers to optional data (`*time.Time`, `*string`,
  `*SecretAttributes`) are `Option` values; dereferencing a `none`
  models a nil-pointer panic, represented by the `GoReturn.panic`
  constructor (the Go function never returns in that case).
* Go's nil slice returned on the error path of `List` is the absent
  value (`none` in the value slot); a successfully accumulated slice
  (possibly empty) is `some`.
* Timestamps (`time.Time`) are abstracted as `Nat`; nothing in the
  verified code inspects their structure.
* `fmt.Sprintf` with `%s`/`%v` holes is modelled by string
  concatenation at each (monomorphic) call site.
* The backend item's identifier (`azsecrets.ID`) is parsed by the
  external SDK; the item carries the already-derived leaf name
  (`IDName`), the result of `secret.ID.Name()`.
* The paged enumeration (`runtime.Pager`) is modelled as the finite
  list of page-fetch outcomes the pager would yield, each either a
  page of items or a raw fetch error.
-/

namespace AzKV

/-- Error code constants from package `errors` (Go: `ErrCode...`). -/
def ErrCodeInternalServerError : String := "INTERNAL_SERVER_ERROR"

/-- Go: `ErrCodeNotFound`. -/
def ErrCodeNotFound : String := "NOT_FOUND"

/-- Go: `ErrCodeUnathorized` (typo preserved from the source). -/
def ErrCodeUnathorized : String := "UNAUTHORIZED"

/-- Go: `ErrCodeInsufficientAccess`. -/
def ErrCodeInsufficientAccess : String := "INSUFFICIENT_ACCESS"

/-- `net/http` status constants used by the source. -/
def StatusNotFound : Nat := 404

def StatusUnauthorized : Nat := 401

def StatusForbidden : Nat := 403

def StatusInternalServerError : Nat := 500

/-- Go: `errors.Error` — the normalized error value. -/
structure Error where
  Code : String
  Status : Nat
  Message : String
  TraceId : String
  deriving Repr, DecidableEq

/-- Go: `errors.InternalServerError`. -/
def InternalServerError (message : String) : Error :=
  { Code := ErrCodeInternalServerError
    Status := StatusInternalServerError
    Message := message
    TraceId := "" }

/-- Go: `errors.InternalServerErrorf` — the caller passes the already
`Sprintf`-formatted message (see the header conventions). -/
def InternalServerErrorf (message : String) : Error :=
  { Code := ErrCodeInternalServerError
    Status := StatusInternalServerError
    Message := message
    TraceId := "" }

/-- Go: `errors.NotFoundError`. -/
def NotFoundError (message : String) : Error :=
  { Code := ErrCodeNotFound
    Status := StatusNotFound
    Message := message
    TraceId := "" }

/-- Go: `errors.UnAuthorizedError`. -/
def UnAuthorizedError (message : String) : Error :=
  { Code := ErrCodeUnathorized
    Status := StatusUnauthorized
    Message := message
    TraceId := "" }

/-- Go: `errors.ForbiddenError`. -/
def ForbiddenError (message : String) : Error :=
  { Code := ErrCodeInsufficientAccess
    Status := StatusForbidden
    Message := message
    TraceId := "" }

/-- Go: `AzInnerError`. -/
structure AzInnerError where
  Code : String
  deriving Repr, DecidableEq

/-- Go: `AzError`. -/
structure AzError where
  Code : String
  Message : String
  InnerError : AzInnerError
  deriving Repr, DecidableEq

/-- Go: `AzErrorResponse`. -/
structure AzErrorResponse where
  Err : AzError
  deriving Repr, DecidableEq

/-- The body of an `azcore.ResponseError`: either it decodes as an
`AzErrorResponse`, or decoding fails with an error whose text is
carried (Go: `json.NewDecoder(...).Decode` result). -/
inductive RawBody where
  | decodable (resp : AzErrorResponse)
  | undecodable (decodeErrText : String)
  deriving Repr, DecidableEq

/-- A non-nil raw error reaching `checkAzErrResp`: either it matches
`*azcore.ResponseError` under `errors.As` (carrying the transport
status code and the response body), or it is a plain error whose
`Error()` description is carried. -/
inductive RawError where
  | responseError (statusCode : Nat) (body : RawBody)
  | plain (description : String)
  deriving Repr, DecidableEq

/-- The `switch statusCode` at the end of `checkAzErrResp`. -/
def switchStatus (statusCode : Nat) (errMsg : String) : Error :=
  if statusCode = StatusNotFound then NotFoundError ""
  else if statusCode = StatusUnauthorized then UnAuthorizedError errMsg
  else if statusCode = StatusForbidden then ForbiddenError errMsg
  else InternalServerError errMsg

/-- Body of `checkAzErrResp` after its `err == nil` early return: for a
structured response error, decode the body (early-return on decode
failure), take the status code from the transport response and the
message from the decoded body; for a plain error, the status code stays
at its zero value and the message is the error's own description. -/
def checkAzErrRespSome (e : RawError) : Error :=
  match e with
  | .responseError statusCode body =>
    match body with
    | .undecodable t =>
        InternalServerErrorf ("Unable to decode the azure error response: " ++ t)
    | .decodable azErr => switchStatus statusCode azErr.Err.Message
  | .plain description => switchStatus 0 description

/-- Go: `checkAzErrResp` — `nil` input yields `nil` output. -/
def checkAzErrResp (e : Option RawError) : Option Error :=
  match e with
  | none => none
  | some e => some (checkAzErrRespSome e)

/-- Go: `Secret` (keyvault.go). Unset fields take Go zero values:
`Value` defaults to `""`, `Expiration` to the zero timestamp. -/
structure Secret where
  Name : String
  Value : String
  Expiration : Nat
  deriving Repr, DecidableEq

/-- Go: `azsecrets.SecretAttributes` — only the `Expires *time.Time`
field is read by this repository. -/
structure SecretAttributes where
  Expires : Option Nat
  deriving Repr, DecidableEq

/-- A backend list item (`azsecrets.SecretProperties`): `IDName` is the
leaf name derived from its identifier by the external SDK
(`secret.ID.Name()`); `Attributes` is a nullable pointer. -/
structure SecretItem where
  IDName : String
  Attributes : Option SecretAttributes
  deriving Repr, DecidableEq

/-- Outcome of a Go function returning `(value, err)`: a normal return
with the two (nullable) slots, or a runtime panic (nil dereference) in
which case the function never returns. -/
inductive GoReturn (α : Type) where
  | ret (value : Option α) (err : Option Error)
  | panic
  deriving Repr, DecidableEq

/-- The inner loop body of `List` for one item: builds
`Secret{Name: secret.ID.Name(), Expiration: *secret.Attributes.Expires}`.
Dereferencing a nil `Attributes` or nil `Expires` is a panic (`none`). -/
def mapListItem (secret : SecretItem) : Option Secret :=
  match secret.Attributes with
  | none => none
  | some attrs =>
    match attrs.Expires with
    | none => none
    | some t => some { Name := secret.IDName, Value := "", Expiration := t }

/-- The inner `for _, secret := range page.Value` loop of `List`:
maps every item of a page, propagating a panic (`none`). -/
def mapPage : List SecretItem → Option (List Secret)
  | [] => some []
  | item :: rest =>
    match mapListItem item, mapPage rest with
    | some s, some l => some (s :: l)
    | _, _ => none

/-- The `for pager.More()` loop of `List`, with the accumulated
`secrets` slice as `acc`: a page-fetch error returns
`(nil, checkAzErrResp(err))` at once, a fetched page is mapped item by
item, and exhaustion returns the accumulated slice with a nil error. -/
def listSecretsLoop (acc : List Secret) :
    List (Except RawError (List SecretItem)) → GoReturn (List Secret)
  | [] => .ret (some acc) none
  | page :: rest =>
    match page with
    | .error e => .ret none (checkAzErrResp (some e))
    | .ok items =>
      match mapPage items with
      | none => .panic
      | some secrets => listSecretsLoop (acc ++ secrets) rest

/-- Go: `KeyVaultSecretsManager.List`, over the pager's page-fetch
outcomes. -/
def listSecrets (pages : List (Except RawError (List SecretItem))) :
    GoReturn (List Secret) :=
  listSecretsLoop [] pages

/-- The fields of `azsecrets.GetSecretResponse` read by `Get`:
`Value *string` and `Attributes *SecretAttributes`. -/
structure GetResponse where
  Value : Option String
  Attributes : Option SecretAttributes
  deriving Repr, DecidableEq

/-- Go: `secretNotFoundErrMsgFmt` applied to a name and vault name
(`fmt.Sprintf` modelled as concatenation). -/
def secretNotFoundMsg (name vaultName : String) : String :=
  "A secret with name (" ++ name ++ ") was not found in the KeyVault (" ++ vaultName ++ ")"

/-- The success path of `Get`: builds
`Secret{Name: name, Value: *resp.Value, Expiration: *resp.Attributes.Expires}`;
dereferencing a nil `Value`, `Attributes` or `Expires` is a panic. -/
def getSecretFromResponse (name : String) (resp : GetResponse) : Option Secret :=
  match resp.Value with
  | none => none
  | some v =>
    match resp.Attributes with
    | none => none
    | some attrs =>
      match attrs.Expires with
      | none => none
      | some t => some { Name := name, Value := v, Expiration := t }

/-- Go: `KeyVaultSecretsManager.Get`. `vaultName` is
`ksm.kvClient.name`; `backendResult` is what
`secretsClient.GetSecret` returned. On a backend error the normalized
error is returned, with its message rewritten when its status is 404. -/
def getSecret (vaultName name : String)
    (backendResult : Except RawError GetResponse) : GoReturn Secret :=
  match backendResult with
  | .error getErr =>
    let err := checkAzErrRespSome getErr
    let errFinal :=
      if err.Status = StatusNotFound then
        { err with Message := secretNotFoundMsg name vaultName }
      else err
    .ret none (some errFinal)
  | .ok resp =>
    match getSecretFromResponse name resp with
    | none => .panic
    | some s => .ret (some s) none

/-! ## Helper lemmas on the normalizer -/

/-- Every output of the four error constructors, and hence of
`checkAzErrRespSome`, has one of the four fixed (code, status) pairs. -/
theorem checkAzErrRespSome_shape (e : RawError) :
    let n := checkAzErrRespSome e
    (n.Code = ErrCodeNotFound ∧ n.Status = 404) ∨
    (n.Code = ErrCodeUnathorized ∧ n.Status = 401) ∨
    (n.Code = ErrCodeInsufficientAccess ∧ n.Status = 403) ∨
    (n.Code = ErrCodeInternalServerError ∧ n.Status = 500) := by
  rcases e with ⟨s, body⟩ | d
  · rcases body with r | t
    · simp only [checkAzErrRespSome, switchStatus]
      split_ifs <;>
        simp [NotFoundError, UnAuthorizedError, ForbiddenError, InternalServerError,
          StatusNotFound, StatusUnauthorized, StatusForbidden, StatusInternalServerError]
    · simp [checkAzErrRespSome, InternalServerErrorf, StatusInternalServerError]
  · simp [checkAzErrRespSome, switchStatus, InternalServerError,
      StatusNotFound, StatusUnauthorized, StatusForbidden, StatusInternalServerError]

/-- For normalizer outputs, status 404 and code NOT_FOUND coincide. -/
theorem checkAzErrRespSome_status_404_iff (e : RawError) :
    (checkAzErrRespSome e).Status = 404 ↔
      (checkAzErrRespSome e).Code = ErrCodeNotFound := by
  rcases checkAzErrRespSome_shape e with ⟨hc, hs⟩ | ⟨hc, hs⟩ | ⟨hc, hs⟩ | ⟨hc, hs⟩ <;>
    rw [hc, hs] <;>
    simp [ErrCodeNotFound, ErrCodeUnathorized, ErrCodeInsufficientAccess,
      ErrCodeInternalServerError]

/-- Every normalizer output carries an empty `TraceId`. -/
theorem checkAzErrRespSome_traceId (e : RawError) :
    (checkAzErrRespSome e).TraceId = "" := by
  rcases e with ⟨s, body⟩ | d
  · rcases body with r | t
    · simp only [checkAzErrRespSome, switchStatus]
      split_ifs <;>
        simp [NotFoundError, UnAuthorizedError, ForbiddenError, InternalServerError,
          InternalServerErrorf]
    · simp [checkAzErrRespSome, InternalServerErrorf]
  · simp only [checkAzErrRespSome, switchStatus]
    split_ifs <;>
      simp [NotFoundError, UnAuthorizedError, ForbiddenError, InternalServerError]

/-! ## Claims about the error normalizer -/

/-- C1: for every non-null raw error, `checkAzErrResp` yields exactly
one of the four codes; a decoded status 404 maps to NOT_FOUND with the
message cleared to the empty string, 401 to UNAUTHORIZED and 403 to
INSUFFICIENT_ACCESS with the backend-provided message, and any other
status — including the zero status of an error without a structured
envelope — maps to INTERNAL_SERVER_ERROR with the backend-provided
(or the raw error's own) message. -/
theorem normalize_code_mapping (e : RawError) :
    checkAzErrResp (some e) = some (checkAzErrRespSome e) ∧
    ((checkAzErrRespSome e).Code = ErrCodeNotFound ∨
      (checkAzErrRespSome e).Code = ErrCodeUnathorized ∨
      (checkAzErrRespSome e).Code = ErrCodeInsufficientAccess ∨
      (checkAzErrRespSome e).Code = ErrCodeInternalServerError) ∧
    (∀ r, e = .responseError 404 (.decodable r) →
      (checkAzErrRespSome e).Code = ErrCodeNotFound ∧
      (checkAzErrRespSome e).Message = "") ∧
    (∀ r, e = .responseError 401 (.decodable r) →
      (checkAzErrRespSome e).Code = ErrCodeUnathorized ∧
      (checkAzErrRespSome e).Message = r.Err.Message) ∧
    (∀ r, e = .responseError 403 (.decodable r) →
      (checkAzErrRespSome e).Code = ErrCodeInsufficientAccess ∧
      (checkAzErrRespSome e).Message = r.Err.Message) ∧
    (∀ s r, e = .responseError s (.decodable r) → s ≠ 404 → s ≠ 401 → s ≠ 403 →
      (checkAzErrRespSome e).Code = ErrCodeInternalServerError ∧
      (checkAzErrRespSome e).Message = r.Err.Message) ∧
    (∀ d, e = .plain d →
      (checkAzErrRespSome e).Code = ErrCodeInternalServerError ∧
      (checkAzErrRespSome e).Message = d) := by
  refine ⟨rfl, ?_, ?_, ?_, ?_, ?_, ?_⟩
  · rcases checkAzErrRespSome_shape e with ⟨hc, _⟩ | ⟨hc, _⟩ | ⟨hc, _⟩ | ⟨hc, _⟩ <;>
      simp [hc]
  · rintro r rfl
    simp [checkAzErrRespSome, switchStatus, NotFoundError, StatusNotFound]
  · rintro r rfl
    simp [checkAzErrRespSome, switchStatus, UnAuthorizedError,
      StatusNotFound, StatusUnauthorized]
  · rintro r rfl
    simp [checkAzErrRespSome, switchStatus, ForbiddenError,
      StatusNotFound, StatusUnauthorized, StatusForbidden]
  · rintro s r rfl h404 h401 h403
    simp [checkAzErrRespSome, switchStatus, InternalServerError,
      StatusNotFound, StatusUnauthorized, StatusForbidden, h404, h401, h403]
  · rintro d rfl
    simp [checkAzErrRespSome, switchStatus, InternalServerError,
      StatusNotFound, StatusUnauthorized, StatusForbidden]

/-- C1 witness: the theorem applied to the concrete raw error
`responseError 404` with a decodable body, and to a plain error. -/
theorem normalize_code_mapping_witness :
    (checkAzErrRespSome (.responseError 404 (.decodable ⟨⟨"SecretNotFound", "msg", ⟨"x"⟩⟩⟩))).Code
        = ErrCodeNotFound ∧
    (checkAzErrRespSome (.responseError 404 (.decodable ⟨⟨"SecretNotFound", "msg", ⟨"x"⟩⟩⟩))).Message
        = "" ∧
    (checkAzErrRespSome (.plain "dial tcp: timeout")).Code = ErrCodeInternalServerError ∧
    (checkAzErrRespSome (.plain "dial tcp: timeout")).Message = "dial tcp: timeout" := by
  have h1 :=
    (normalize_code_mapping (.responseError 404 (.decodable ⟨⟨"SecretNotFound", "msg", ⟨"x"⟩⟩⟩))).2.2.1
      ⟨⟨"SecretNotFound", "msg", ⟨"x"⟩⟩⟩ rfl
  have h2 :=
    (normalize_code_mapping (.plain "dial tcp: timeout")).2.2.2.2.2.2
      "dial tcp: timeout" rfl
  exact ⟨h1.1, h1.2, h2.1, h2.2⟩

/-- C4 counterexample: for a raw error whose body fails to decode, the
normalized error's status is 500 (`http.StatusInternalServerError`),
not absent/zero as claimed. -/
theorem decode_failure_status_counterexample :
    (checkAzErrRespSome (.responseError 404 (.undecodable "unexpected EOF"))).Status = 500 ∧
    (checkAzErrRespSome (.responseError 404 (.undecodable "unexpected EOF"))).Status ≠ 0 := by
  constructor <;> decide

/-- C4 (amended): for every raw error carrying a structured envelope
whose body fails to decode, the normalizer returns an
INTERNAL_SERVER_ERROR whose message wraps the decode error text and
whose status is 500. -/
theorem decode_failure_normalized (s : Nat) (t : String) :
    checkAzErrRespSome (.responseError s (.undecodable t)) =
      { Code := ErrCodeInternalServerError
        Status := 500
        Message := "Unable to decode the azure error response: " ++ t
        TraceId := "" } := by
  rfl

/-- C6 counterexample: a structured envelope with transport status 502
and a decodable body normalizes to status 500, not 502. -/
theorem status_field_counterexample :
    (checkAzErrRespSome (.responseError 502 (.decodable ⟨⟨"BadGateway", "bad gateway", ⟨"x"⟩⟩⟩))).Status
        = 500 ∧
    (checkAzErrRespSome (.responseError 502 (.decodable ⟨⟨"BadGateway", "bad gateway", ⟨"x"⟩⟩⟩))).Status
        ≠ 502 := by
  constructor <;> decide

/-- C6 (amended): for a raw error with a structured envelope with
decodable body and transport status S, the normalized error's status
equals S exactly when S is one of 404, 401, 403, 500; for every other
S the status is 500 (the constructors carry fixed statuses). -/
theorem status_field_mapping (s : Nat) (r : AzErrorResponse) :
    (checkAzErrRespSome (.responseError s (.decodable r))).Status =
      if s = 404 ∨ s = 401 ∨ s = 403 ∨ s = 500 then s else 500 := by
  by_cases h404 : s = 404
  · subst h404
    simp [checkAzErrRespSome, switchStatus, StatusNotFound, NotFoundError]
  · by_cases h401 : s = 401
    · subst h401
      simp [checkAzErrRespSome, switchStatus, StatusNotFound, StatusUnauthorized,
        UnAuthorizedError]
    · by_cases h403 : s = 403
      · subst h403
        simp [checkAzErrRespSome, switchStatus, StatusNotFound, StatusUnauthorized,
          StatusForbidden, ForbiddenError]
      · simp only [checkAzErrRespSome, switchStatus, StatusNotFound, StatusUnauthorized,
          StatusForbidden, h404, h401, h403, if_false, InternalServerError,
          StatusInternalServerError, or_false, false_or]
        split_ifs with h <;> simp [h]

/-! ## Helper lemmas on the List loop and the entity mapper -/

/-- Whatever `mapListItem` produces has an empty `Value`. -/
theorem mapListItem_value_empty (item : SecretItem) (s : Secret)
    (h : mapListItem item = some s) : s.Value = "" := by
  rcases item with ⟨n, _ | ⟨_ | t⟩⟩ <;> simp_all [mapListItem]
  exact h.symm ▸ rfl

/-- A page that maps without a panic maps to exactly
`items.filterMap mapListItem`. -/
theorem mapPage_eq_filterMap (items : List SecretItem) (l : List Secret)
    (h : mapPage items = some l) : l = items.filterMap mapListItem := by
  induction items generalizing l with
  | nil => simpa [mapPage] using h.symm
  | cons item rest ih =>
    rcases hi : mapListItem item with _ | s <;>
      rcases hr : mapPage rest with _ | l' <;>
      simp [mapPage, hi, hr] at h
    simp [List.filterMap_cons, hi, ← h, ih l' hr]

/-- A page all of whose items map produces a page result. -/
theorem mapPage_isSome (items : List SecretItem)
    (h : ∀ item ∈ items, (mapListItem item).isSome) : (mapPage items).isSome := by
  induction items with
  | nil => simp [mapPage]
  | cons item rest ih =>
    obtain ⟨s, hs⟩ := Option.isSome_iff_exists.mp (h item (by simp))
    obtain ⟨l, hl⟩ :=
      Option.isSome_iff_exists.mp (ih fun i hi => h i (by simp [hi]))
    simp [mapPage, hs, hl]

/-- With every item of a list mapping to `some`, `filterMap` keeps the
length. -/
theorem length_filterMap_of_isSome {α β : Type} (f : α → Option β) (l : List α)
    (h : ∀ x ∈ l, (f x).isSome) : (l.filterMap f).length = l.length := by
  induction l with
  | nil => simp
  | cons x rest ih =>
    obtain ⟨y, hy⟩ := Option.isSome_iff_exists.mp (h x (by simp))
    simp [List.filterMap_cons, hy, ih fun a ha => h a (by simp [ha])]

/-- The List loop over error-free, panic-free pages returns the
accumulator followed by the mapped items of all pages in order. -/
theorem listSecretsLoop_ok (pages : List (List SecretItem)) :
    ∀ acc : List Secret, (∀ item ∈ pages.flatten, (mapListItem item).isSome) →
      listSecretsLoop acc (pages.map Except.ok) =
        .ret (some (acc ++ pages.flatten.filterMap mapListItem)) none := by
  induction pages with
  | nil => intro acc _; simp [listSecretsLoop]
  | cons pg rest ih =>
    intro acc h
    have hpg : ∀ item ∈ pg, (mapListItem item).isSome := fun item hi =>
      h item (by simp [List.mem_flatten]; exact Or.inl hi)
    obtain ⟨l, hl⟩ := Option.isSome_iff_exists.mp (mapPage_isSome pg hpg)
    rw [List.map_cons]
    show listSecretsLoop acc (Except.ok pg :: rest.map Except.ok) = _
    simp only [listSecretsLoop, hl]
    rw [ih (acc ++ l) fun item hi => h item (by simp [List.mem_flatten] at hi ⊢; exact Or.inr hi)]
    rw [mapPage_eq_filterMap pg l hl]
    simp [List.filterMap_append]

/-- The List loop, after any panic-free good pages, stops at the first
failing page fetch with no value and the normalized error. -/
theorem listSecretsLoop_first_error (goodPages : List (List SecretItem)) :
    ∀ (acc : List Secret) (e : RawError) (rest : List (Except RawError (List SecretItem))),
      (∀ item ∈ goodPages.flatten, (mapListItem item).isSome) →
      listSecretsLoop acc (goodPages.map Except.ok ++ Except.error e :: rest) =
        .ret none (some (checkAzErrRespSome e)) := by
  induction goodPages with
  | nil => intro acc e rest _; simp [listSecretsLoop, checkAzErrResp]
  | cons pg rest' ih =>
    intro acc e rest h
    have hpg : ∀ item ∈ pg, (mapListItem item).isSome := fun item hi =>
      h item (by simp [List.mem_flatten]; exact Or.inl hi)
    obtain ⟨l, hl⟩ := Option.isSome_iff_exists.mp (mapPage_isSome pg hpg)
    rw [List.map_cons, List.cons_append]
    show listSecretsLoop acc (Except.ok pg :: (rest'.map Except.ok ++ Except.error e :: rest)) = _
    simp only [listSecretsLoop, hl]
    exact ih (acc ++ l) e rest fun item hi =>
      h item (by simp [List.mem_flatten] at hi ⊢; exact Or.inr hi)

/-- Every secret the List loop returns either was in the accumulator or
has an empty `Value`. -/
theorem listSecretsLoop_values_empty
    (pages : List (Except RawError (List SecretItem))) :
    ∀ (acc secrets : List Secret), (∀ s ∈ acc, s.Value = "") →
      listSecretsLoop acc pages = .ret (some secrets) none →
      ∀ s ∈ secrets, s.Value = "" := by
  induction pages with
  | nil =>
    intro acc secrets hacc h
    simp only [listSecretsLoop, GoReturn.ret.injEq, Option.some.injEq] at h
    exact h.1 ▸ hacc
  | cons page rest ih =>
    intro acc secrets hacc h
    rcases page with e | items
    · simp [listSecretsLoop, checkAzErrResp] at h
    · rcases hm : mapPage items with _ | l
      · simp [listSecretsLoop, hm] at h
      · refine ih (acc ++ l) secrets ?_ (by simpa [listSecretsLoop, hm] using h)
        intro s hs
        rcases List.mem_append.mp hs with hs | hs
        · exact hacc s hs
        · have hfe := mapPage_eq_filterMap items l hm
          subst hfe
          obtain ⟨item, _, hitem⟩ := List.mem_filterMap.mp hs
          exact mapListItem_value_empty item s hitem

/-- Whenever the List loop returns normally, exactly one of the value
slot and the error slot is populated. -/
theorem listSecretsLoop_xor (pages : List (Except RawError (List SecretItem))) :
    ∀ (acc : List Secret) (v : Option (List Secret)) (e : Option Error),
      listSecretsLoop acc pages = .ret v e → (v.isSome ↔ e = none) := by
  induction pages with
  | nil =>
    intro acc v e h
    simp only [listSecretsLoop, GoReturn.ret.injEq] at h
    simp [← h.1, ← h.2]
  | cons page rest ih =>
    intro acc v e h
    rcases page with ex | items
    · simp only [listSecretsLoop, checkAzErrResp, GoReturn.ret.injEq] at h
      simp [← h.1, ← h.2]
    · rcases hm : mapPage items with _ | l
      · simp [listSecretsLoop, hm] at h
      · exact ih (acc ++ l) v e (by simpa [listSecretsLoop, hm] using h)

/-- Any error the List loop returns has an empty `TraceId`. -/
theorem listSecretsLoop_traceId (pages : List (Except RawError (List SecretItem))) :
    ∀ (acc : List Secret) (v : Option (List Secret)) (e : Error),
      listSecretsLoop acc pages = .ret v (some e) → e.TraceId = "" := by
  induction pages with
  | nil => intro acc v e h; simp [listSecretsLoop] at h
  | cons page rest ih =>
    intro acc v e h
    rcases page with ex | items
    · simp only [listSecretsLoop, checkAzErrResp, GoReturn.ret.injEq,
        Option.some.injEq] at h
      exact h.2 ▸ checkAzErrRespSome_traceId ex
    · rcases hm : mapPage items with _ | l
      · simp [listSecretsLoop, hm] at h
      · exact ih (acc ++ l) v e (by simpa [listSecretsLoop, hm] using h)

/-! ## Claims about List and Get -/

/-- C2: whenever a page fetch fails (after any number of successfully
processed pages), List returns an absent list — not the items
accumulated from the earlier pages — together with the normalized
error from that failure. -/
theorem list_page_failure_all_or_nothing (goodPages : List (List SecretItem))
    (e : RawError) (rest : List (Except RawError (List SecretItem)))
    (h : ∀ item ∈ goodPages.flatten, (mapListItem item).isSome) :
    listSecrets (goodPages.map Except.ok ++ Except.error e :: rest) =
      .ret none (some (checkAzErrRespSome e)) :=
  listSecretsLoop_first_error goodPages [] e rest h

/-- C2 witness: one good page of one item, then a failing fetch —
the result is no list and the concrete normalized error. -/
theorem list_page_failure_witness :
    listSecrets [Except.ok [{ IDName := "a", Attributes := some { Expires := some 7 } }],
        Except.error (.plain "connection reset")] =
      .ret none (some
        { Code := "INTERNAL_SERVER_ERROR", Status := 500,
          Message := "connection reset", TraceId := "" }) := by
  have h := list_page_failure_all_or_nothing
    [[{ IDName := "a", Attributes := some { Expires := some 7 } }]]
    (.plain "connection reset") [] (by decide)
  simpa using h

/-- C7: over error-free pages all of whose items map without a panic,
List returns one Secret per backend item, concatenated across all
pages in backend-returned order. -/
theorem list_success_concatenates (pages : List (List SecretItem))
    (h : ∀ item ∈ pages.flatten, (mapListItem item).isSome) :
    listSecrets (pages.map Except.ok) =
      .ret (some (pages.flatten.filterMap mapListItem)) none ∧
    (pages.flatten.filterMap mapListItem).length = pages.flatten.length := by
  constructor
  · simpa [listSecrets] using listSecretsLoop_ok pages [] h
  · exact length_filterMap_of_isSome mapListItem pages.flatten h

/-- C7 witness: pages `[a, b]` then `[c]` yield `[a, b, c]` in order. -/
theorem list_success_concatenates_witness :
    listSecrets [Except.ok [{ IDName := "a", Attributes := some { Expires := some 1 } },
        { IDName := "b", Attributes := some { Expires := some 2 } }],
      Except.ok [{ IDName := "c", Attributes := some { Expires := some 3 } }]] =
      .ret (some [{ Name := "a", Value := "", Expiration := 1 },
        { Name := "b", Value := "", Expiration := 2 },
        { Name := "c", Value := "", Expiration := 3 }]) none := by
  have h := (list_success_concatenates
    [[{ IDName := "a", Attributes := some { Expires := some 1 } },
      { IDName := "b", Attributes := some { Expires := some 2 } }],
     [{ IDName := "c", Attributes := some { Expires := some 3 } }]] (by decide)).1
  simpa using h

/-- C8: every Secret in the list returned by a successful List call has
an empty `Value`, regardless of the backend items' content. -/
theorem list_values_empty (pages : List (Except RawError (List SecretItem)))
    (secrets : List Secret) (h : listSecrets pages = .ret (some secrets) none) :
    ∀ s ∈ secrets, s.Value = "" :=
  listSecretsLoop_values_empty pages [] secrets (by simp) h

/-- C8 witness: the Secret returned for a concrete backend item has an
empty `Value`. -/
theorem list_values_empty_witness :
    (Secret.mk "a" "" 5).Value = "" := by
  exact list_values_empty [Except.ok [{ IDName := "a", Attributes := some { Expires := some 5 } }]]
    [{ Name := "a", Value := "", Expiration := 5 }] (by decide)
    (Secret.mk "a" "" 5) (by simp)

/-- C9: whenever List or Get returns, exactly one of the value slot and
the error slot is populated — never both, never neither. -/
theorem operations_value_xor_error
    (pages : List (Except RawError (List SecretItem)))
    (vaultName name : String) (b : Except RawError GetResponse) :
    (∀ (v : Option (List Secret)) (e : Option Error),
      listSecrets pages = .ret v e → (v.isSome ↔ e = none)) ∧
    (∀ (v : Option Secret) (e : Option Error),
      getSecret vaultName name b = .ret v e → (v.isSome ↔ e = none)) := by
  constructor
  · exact fun v e h => listSecretsLoop_xor pages [] v e h
  · intro v e h
    rcases b with err | resp
    · simp only [getSecret, GoReturn.ret.injEq] at h
      simp [← h.1, ← h.2]
    · rcases hg : getSecretFromResponse name resp with _ | s
      · simp [getSecret, hg] at h
      · simp only [getSecret, hg, GoReturn.ret.injEq] at h
        simp [← h.1, ← h.2]

/-- C9 witness: the theorem applied to a concrete empty enumeration and
a concrete successful Get. -/
theorem operations_value_xor_error_witness :
    ((some ([] : List Secret)).isSome ↔ (none : Option Error) = none) ∧
    ((some (Secret.mk "n" "v" 3)).isSome ↔ (none : Option Error) = none) := by
  constructor
  · exact (operations_value_xor_error [] "vault" "n"
      (.ok { Value := some "v", Attributes := some { Expires := some 3 } })).1
      (some []) none rfl
  · exact (operations_value_xor_error [] "vault" "n"
      (.ok { Value := some "v", Attributes := some { Expires := some 3 } })).2
      (some (Secret.mk "n" "v" 3)) none rfl

/-- C10: every normalized error — from the normalizer itself, from
List, or from Get — carries an empty `TraceId`. -/
theorem trace_id_always_empty (raw : Option RawError)
    (pages : List (Except RawError (List SecretItem)))
    (vaultName name : String) (b : Except RawError GetResponse) :
    (∀ n, checkAzErrResp raw = some n → n.TraceId = "") ∧
    (∀ (v : Option (List Secret)) (e : Error),
      listSecrets pages = .ret v (some e) → e.TraceId = "") ∧
    (∀ (v : Option Secret) (e : Error),
      getSecret vaultName name b = .ret v (some e) → e.TraceId = "") := by
  refine ⟨?_, ?_, ?_⟩
  · intro n h
    rcases raw with _ | e
    · simp [checkAzErrResp] at h
    · simp only [checkAzErrResp, Option.some.injEq] at h
      exact h ▸ checkAzErrRespSome_traceId e
  · exact fun v e h => listSecretsLoop_traceId pages [] v e h
  · intro v e h
    rcases b with err | resp
    · simp only [getSecret, GoReturn.ret.injEq, Option.some.injEq] at h
      have htr := checkAzErrRespSome_traceId err
      rcases h with ⟨-, h2⟩
      split at h2 <;> simp [← h2, htr]
    · rcases hg : getSecretFromResponse name resp with _ | s <;>
        simp [getSecret, hg] at h

/-- C10 witness: concrete raw errors through all three paths. -/
theorem trace_id_always_empty_witness :
    (checkAzErrRespSome (.plain "boom")).TraceId = "" ∧
    (checkAzErrRespSome (.responseError 403 (.decodable ⟨⟨"Forbidden", "no access", ⟨"x"⟩⟩⟩))).TraceId = "" := by
  constructor
  · exact (trace_id_always_empty (some (.plain "boom")) [] "v" "n"
      (.error (.plain "boom"))).1 _ rfl
  · exact (trace_id_always_empty
      (some (.responseError 403 (.decodable ⟨⟨"Forbidden", "no access", ⟨"x"⟩⟩⟩))) [] "v" "n"
      (.error (.plain "boom"))).1 _ rfl

/-- C3: when the backend error for `Get(name)` normalizes to NOT_FOUND,
the returned error's message is exactly
"A secret with name (name) was not found in the KeyVault (vaultName)";
for every other normalized code the error passes through unmodified. -/
theorem get_not_found_message (vaultName name : String) (raw : RawError) :
    ((checkAzErrRespSome raw).Code = ErrCodeNotFound →
      getSecret vaultName name (.error raw) =
        .ret none (some { checkAzErrRespSome raw with
          Message := secretNotFoundMsg name vaultName })) ∧
    ((checkAzErrRespSome raw).Code ≠ ErrCodeNotFound →
      getSecret vaultName name (.error raw) =
        .ret none (some (checkAzErrRespSome raw))) := by
  have hiff := checkAzErrRespSome_status_404_iff raw
  constructor
  · intro h
    have hs : (checkAzErrRespSome raw).Status = StatusNotFound := by
      rw [StatusNotFound]
      exact hiff.mpr h
    simp [getSecret, hs]
  · intro h
    have hs : ¬ (checkAzErrRespSome raw).Status = StatusNotFound := by
      rw [StatusNotFound]
      exact fun hc => h (hiff.mp hc)
    simp [getSecret, hs]

/-- C3 witness: a 404 backend error on `Get("foo")` against vault
"myvault" yields the exact specialized message, and a 403 backend error
passes through with its own message. -/
theorem get_not_found_message_witness :
    getSecret "myvault" "foo"
        (.error (.responseError 404 (.decodable ⟨⟨"SecretNotFound", "backend text", ⟨"x"⟩⟩⟩))) =
      .ret none (some
        { Code := "NOT_FOUND", Status := 404,
          Message := "A secret with name (foo) was not found in the KeyVault (myvault)",
          TraceId := "" }) ∧
    getSecret "myvault" "foo"
        (.error (.responseError 403 (.decodable ⟨⟨"Forbidden", "backend text", ⟨"x"⟩⟩⟩))) =
      .ret none (some
        { Code := "INSUFFICIENT_ACCESS", Status := 403,
          Message := "backend text", TraceId := "" }) := by
  constructor
  · have h := (get_not_found_message "myvault" "foo"
      (.responseError 404 (.decodable ⟨⟨"SecretNotFound", "backend text", ⟨"x"⟩⟩⟩))).1
      (by decide)
    simpa using h
  · have h := (get_not_found_message "myvault" "foo"
      (.responseError 403 (.decodable ⟨⟨"Forbidden", "backend text", ⟨"x"⟩⟩⟩))).2
      (by decide)
    simpa using h

/-- C5: a backend item (or single-secret read response) whose expiry
attribute is absent is not mapped to a Secret with a zero expiration —
the dereference of the nil expiry panics, so List and Get crash on it. -/
theorem absent_expiry_panics :
    mapListItem { IDName := "a", Attributes := some { Expires := none } } = none ∧
    listSecrets [Except.ok [{ IDName := "a", Attributes := some { Expires := none } }]] =
      .panic ∧
    getSecret "vault" "a"
        (.ok { Value := some "v", Attributes := some { Expires := none } }) = .panic := by
  refine ⟨rfl, rfl, rfl⟩

end AzKV
